import Mathlib

/-!
Verification development for the CoveMail sync job scheduler and its UI layer.

The TypeScript UI layer (src/unnamed/part_001, src/ui/src/App.tsx) and the SQL
schema (src/crates/aether-storage/migrations/0001_init.sql) are embedded
directly from the source. The Rust scheduler core (job store, claim/complete
operations, backoff policy, dispatcher) is not present under src/; those
definitions are modelled from the specification, as marked in their doc
comments.
-/

namespace CoveMail

/-! ## Run summaries and the UI sync helpers -/

/-- Embedded from src/unnamed/part_001 (types): interface SyncRunSummary with
six numeric counters. -/
structure SyncRunSummary where
  completed_jobs : Int
  failed_jobs : Int
  retried_jobs : Int
  email_messages_synced : Int
  calendar_events_synced : Int
  tasks_synced : Int
deriving DecidableEq, Repr

/-- The all-zero run summary. -/
def SyncRunSummary.zero : SyncRunSummary :=
  { completed_jobs := 0, failed_jobs := 0, retried_jobs := 0,
    email_messages_synced := 0, calendar_events_synced := 0, tasks_synced := 0 }

/-- Embedded from src/unnamed/part_001 lines 109-121: runSyncQueue either
forwards to the backend invoke("run_sync_queue") or, when the Tauri runtime is
not attached, returns a literal all-zero summary object. The backend result is
modelled as an Option parameter. -/
def runSyncQueue (backend : Option SyncRunSummary) : SyncRunSummary :=
  match backend with
  | some s => s
  | none =>
    { completed_jobs := 0, failed_jobs := 0, retried_jobs := 0,
      email_messages_synced := 0, calendar_events_synced := 0, tasks_synced := 0 }

/-- JavaScript Array.prototype.join with separator " | ", as used by
summarizeSync in src/ui/src/App.tsx line 101. -/
def joinBar : List String → String
  | [] => ""
  | [p] => p
  | p :: q :: rest => p ++ " | " ++ joinBar (q :: rest)

/-- Embedded from src/ui/src/App.tsx lines 94-100: the parts array built by
summarizeSync, one conditional push per counter, in source order. -/
def syncParts (summary : SyncRunSummary) : List String :=
  (if summary.email_messages_synced > 0
    then [toString summary.email_messages_synced ++ " email items"] else []) ++
  (if summary.calendar_events_synced > 0
    then [toString summary.calendar_events_synced ++ " calendar events"] else []) ++
  (if summary.tasks_synced > 0
    then [toString summary.tasks_synced ++ " tasks"] else []) ++
  (if summary.retried_jobs > 0
    then [toString summary.retried_jobs ++ " retried"] else []) ++
  (if summary.failed_jobs > 0
    then [toString summary.failed_jobs ++ " failed"] else [])

/-- Embedded from src/ui/src/App.tsx lines 94-102: summarizeSync returns the
completed-jobs sentence when no part was pushed, else the " | "-joined parts. -/
def summarizeSync (summary : SyncRunSummary) : String :=
  if syncParts summary = [] then toString summary.completed_jobs ++ " completed jobs"
  else joinBar (syncParts summary)

/-! ## The bootstrap browser-dev fallback (src/unnamed/part_001 lines 31-82) -/

structure PrivacyConfig where
  telemetry_enabled : Bool
  analytics_enabled : Bool
  block_untrusted_remote_content : Bool
  default_ai_mode : String
deriving DecidableEq, Repr

structure DatabaseConfig where
  file_name : String
  sqlcipher_enabled : Bool
deriving DecidableEq, Repr

structure SyncConfig where
  email_poll_interval_secs : Int
  calendar_poll_interval_secs : Int
  task_poll_interval_secs : Int
  max_parallel_jobs : Int
deriving DecidableEq, Repr

structure AiLocalConfig where
  enabled : Bool
  llama_cpp_binary : Option String
  model_path : Option String
  context_tokens : Int
  gpu_layers : Int
deriving DecidableEq, Repr

structure CloudProviderConfig where
  enabled : Bool
  model : String
  api_base : Option String
deriving DecidableEq, Repr

structure AiCloudConfig where
  enabled : Bool
  per_feature_opt_in : Bool
  feature_opt_in : List String
  default_provider : Option String
  providers : List (String × CloudProviderConfig)
deriving DecidableEq, Repr

structure AiConfig where
  loc : AiLocalConfig
  cloud : AiCloudConfig
deriving DecidableEq, Repr

structure UiConfig where
  compact_density : Bool
  default_start_page : String
  timezone : Option String
deriving DecidableEq, Repr

structure AppConfig where
  version : Int
  profile_name : String
  privacy : PrivacyConfig
  database : DatabaseConfig
  sync : SyncConfig
  ai : AiConfig
  ui : UiConfig
deriving DecidableEq, Repr

/-- Embedded from src/unnamed/part_001 (types): interface Account, restricted
to the fields the bootstrap claims need. -/
structure Account where
  id : String
  provider : String
  display_name : String
  email_address : String
deriving DecidableEq, Repr

structure BootstrapResponse where
  config : AppConfig
  accounts : List Account
  pending_sync_jobs : Int
deriving DecidableEq, Repr

/-- Embedded from src/unnamed/part_001 lines 34-78: the literal response
returned by bootstrap() when the Tauri runtime import fails. -/
def browserDevBootstrap : BootstrapResponse :=
  { config :=
      { version := 1,
        profile_name := "browser-dev",
        privacy :=
          { telemetry_enabled := false,
            analytics_enabled := false,
            block_untrusted_remote_content := true,
            default_ai_mode := "local" },
        database :=
          { file_name := "covemail.sqlite3", sqlcipher_enabled := false },
        sync :=
          { email_poll_interval_secs := 120,
            calendar_poll_interval_secs := 300,
            task_poll_interval_secs := 300,
            max_parallel_jobs := 4 },
        ai :=
          { loc :=
              { enabled := true, llama_cpp_binary := none, model_path := none,
                context_tokens := 4096, gpu_layers := 32 },
            cloud :=
              { enabled := false, per_feature_opt_in := true, feature_opt_in := [],
                default_provider := none, providers := [] } },
        ui :=
          { compact_density := false, default_start_page := "inbox",
            timezone := none } },
    accounts := [],
    pending_sync_jobs := 0 }

/-- Embedded from src/unnamed/part_001 lines 31-82: bootstrap() forwards to the
backend when the runtime is attached and otherwise returns the browser-dev
fallback. -/
def bootstrap (backend : Option BootstrapResponse) : BootstrapResponse :=
  match backend with
  | some r => r
  | none => browserDevBootstrap

/-! ## The queue_sync_job request issued by the UI -/

/-- Embedded from src/unnamed/part_001 lines 99-105: the payload object passed
to invoke("queue_sync_job"). The empty JSON object literal is modelled as an
empty association list. -/
structure QueueSyncJobPayload where
  account_id : String
  domain : String
  payload : List (String × String)
  run_after_secs : Int
deriving DecidableEq, Repr

structure InvokeRequest where
  cmd : String
  body : QueueSyncJobPayload
deriving DecidableEq, Repr

/-- Embedded from src/unnamed/part_001 lines 95-107: queueEmailSync issues one
queue_sync_job request when the runtime is attached, none otherwise. The
returned list is the sequence of invoke calls the function performs. -/
def queueEmailSync (runtimeAttached : Bool) (accountId : String) : List InvokeRequest :=
  if runtimeAttached then
    [{ cmd := "queue_sync_job",
       body := { account_id := accountId, domain := "email", payload := [],
                 run_after_secs := 0 } }]
  else []

/-! ## The persisted queue schema (0001_init.sql lines 89-103) -/

structure SqlColumn where
  name : String
  sqlType : String
  notNull : Bool
  primaryKey : Bool
deriving DecidableEq, Repr

structure SqlTable where
  name : String
  columns : List SqlColumn
deriving DecidableEq, Repr

structure SqlIndex where
  name : String
  table : String
  keyColumns : List String
deriving DecidableEq, Repr

/-- Embedded from src/crates/aether-storage/migrations/0001_init.sql lines
89-101: CREATE TABLE sync_queue. -/
def sync_queue : SqlTable :=
  { name := "sync_queue",
    columns :=
      [ { name := "id", sqlType := "TEXT", notNull := false, primaryKey := true },
        { name := "account_id", sqlType := "TEXT", notNull := true, primaryKey := false },
        { name := "domain", sqlType := "TEXT", notNull := true, primaryKey := false },
        { name := "status", sqlType := "TEXT", notNull := true, primaryKey := false },
        { name := "payload_json", sqlType := "TEXT", notNull := true, primaryKey := false },
        { name := "attempt_count", sqlType := "INTEGER", notNull := true, primaryKey := false },
        { name := "max_attempts", sqlType := "INTEGER", notNull := true, primaryKey := false },
        { name := "run_after", sqlType := "TEXT", notNull := true, primaryKey := false },
        { name := "last_error", sqlType := "TEXT", notNull := false, primaryKey := false },
        { name := "created_at", sqlType := "TEXT", notNull := true, primaryKey := false },
        { name := "updated_at", sqlType := "TEXT", notNull := true, primaryKey := false } ] }

/-- Embedded from src/crates/aether-storage/migrations/0001_init.sql line 103:
CREATE INDEX idx_sync_queue_next ON sync_queue(status, run_after). -/
def idx_sync_queue_next : SqlIndex :=
  { name := "idx_sync_queue_next", table := "sync_queue",
    keyColumns := ["status", "run_after"] }

/-- A row of the sync_queue table, with the SQL column types (timestamps are
TEXT, compared lexicographically as ISO-8601 strings). -/
structure SyncQueueRow where
  id : String
  account_id : String
  domain : String
  status : String
  payload_json : String
  attempt_count : Int
  max_attempts : Int
  run_after : String
  last_error : Option String
  created_at : String
  updated_at : String
deriving DecidableEq, Repr

/-- Due-job lookup predicate on a persisted row: status pending and run_after
at or before now (spec section 3 invariant, backing the index of line 103). -/
def rowIsDue (now : String) (r : SyncQueueRow) : Prop :=
  r.status = "pending" ∧ r.run_after ≤ now

/-! ## The scheduler core, modelled from the spec

The Rust crate implementing the Job Store, Backoff Policy and Dispatcher is not
under src/; only its SQL schema, its UI callers and its design documents are.
The definitions below are therefore modelled from the specification (sections
3, 4.1, 4.2, 4.3, 4.6). Timestamps are naturals, payloads opaque strings, and
each store operation is one atomic step, matching the atomic claim requirement
of section 4.1; concurrency is the interleaving of these atomic steps. -/

/-- Modelled from the spec, section 3: domain is a closed tagged variant. -/
inductive Domain
  | email
  | calendar
  | tasks
deriving DecidableEq, Repr

/-- Modelled from the spec, section 3: job status. -/
inductive Status
  | pending
  | running
  | succeeded
  | deadLetter
deriving DecidableEq, Repr

/-- Modelled from the spec, section 3: a SyncJob record. -/
structure SyncJob where
  id : Nat
  account_id : String
  domain : Domain
  status : Status
  payload : String
  attempt_count : Nat
  max_attempts : Nat
  run_after : Nat
  last_error : Option String
  created_at : Nat
deriving DecidableEq, Repr

/-- The Job Store state: the job table plus the id counter used to assign
fresh, immutable ids at enqueue time. -/
structure Store where
  jobs : List SyncJob
  next_id : Nat
deriving DecidableEq, Repr

def Store.empty : Store := { jobs := [], next_id := 0 }

/-- Spec section 3: a job is eligible for dispatch iff status is pending and
run_after is at or before now. -/
def SyncJob.isDue (now : Nat) (j : SyncJob) : Bool :=
  j.status == Status.pending && j.run_after ≤ now

/-- Spec section 4.1: claim order is run_after ascending, ties broken by
created_at ascending. -/
def dueLE (a b : SyncJob) : Prop :=
  a.run_after < b.run_after ∨ (a.run_after = b.run_after ∧ a.created_at ≤ b.created_at)

instance : DecidableRel dueLE := by
  unfold dueLE
  intro a b
  infer_instance

/-- Modelled from the spec, section 4.1: enqueue(account_id, domain, payload,
run_after) inserts a new job with status pending, attempt_count 0 and the
configured max_attempts, and returns its fresh id. -/
def enqueue (st : Store) (account : String) (dom : Domain) (payload : String)
    (run_after : Nat) (maxAttempts : Nat) (now : Nat) : Store × Nat :=
  let job : SyncJob :=
    { id := st.next_id, account_id := account, domain := dom,
      status := Status.pending, payload := payload, attempt_count := 0,
      max_attempts := maxAttempts, run_after := run_after, last_error := none,
      created_at := now }
  ({ jobs := st.jobs ++ [job], next_id := st.next_id + 1 }, st.next_id)

/-- The transition of a selected job to running. -/
def setRunning (j : SyncJob) : SyncJob := { j with status := Status.running }

/-- The selection of claim_due: up to limit due jobs, ordered by run_after
ascending with ties broken by created_at ascending. -/
def claimChosen (st : Store) (now limit : Nat) : List SyncJob :=
  (List.insertionSort dueLE (st.jobs.filter (SyncJob.isDue now))).take limit

/-- The per-row effect of a claim pass: a row selected by id moves to running,
any other row is untouched. -/
def claimMark (st : Store) (now limit : Nat) (j : SyncJob) : SyncJob :=
  if (claimChosen st now limit).any (fun c => c.id == j.id) then setRunning j else j

/-- Modelled from the spec, section 4.1: claim_due(now, limit) atomically
selects up to limit due jobs in due order, transitions each selected job to
running, and returns them. The whole call is one atomic step on the store. -/
def claim_due (st : Store) (now limit : Nat) : Store × List SyncJob :=
  ({ st with jobs := st.jobs.map (claimMark st now limit) },
   (claimChosen st now limit).map setRunning)

/-- Modelled from the spec, sections 4.3 and 4.5: the classified outcome of one
execution attempt. -/
inductive Outcome
  | success (items_synced : Nat)
  | transient (msg : String)
  | permanent (msg : String)
deriving DecidableEq, Repr

/-- Modelled from the spec, section 4.3: the transition applied to a running
job on attempt outcome. Every attempt increments attempt_count; a transient
failure below the ceiling reschedules via the backoff offset, at the ceiling it
dead-letters; a permanent failure dead-letters immediately. -/
def applyOutcome (now : Nat) (backoff : Nat → Nat) (o : Outcome) (j : SyncJob) : SyncJob :=
  match o with
  | Outcome.success _ =>
    { j with attempt_count := j.attempt_count + 1, status := Status.succeeded,
             last_error := none }
  | Outcome.transient msg =>
    if j.attempt_count + 1 < j.max_attempts then
      { j with attempt_count := j.attempt_count + 1, status := Status.pending,
               run_after := now + backoff (j.attempt_count + 1), last_error := some msg }
    else
      { j with attempt_count := j.attempt_count + 1, status := Status.deadLetter,
               last_error := some msg }
  | Outcome.permanent msg =>
    { j with attempt_count := j.attempt_count + 1, status := Status.deadLetter,
             last_error := some msg }

/-- The per-row effect of a completion: only the claimed (running) job with the
given id is transitioned. -/
def completeMark (jobId : Nat) (o : Outcome) (now : Nat) (backoff : Nat → Nat)
    (j : SyncJob) : SyncJob :=
  if j.id == jobId && j.status == Status.running then applyOutcome now backoff o j else j

/-- Modelled from the spec, sections 4.1 and 4.3: complete(job_id, outcome)
applies the attempt transition to the claimed (running) job with that id and
persists the new state, in one atomic step. -/
def complete (st : Store) (jobId : Nat) (o : Outcome) (now : Nat)
    (backoff : Nat → Nat) : Store :=
  { st with jobs := st.jobs.map (completeMark jobId o now backoff) }

/-- One atomic Job Store operation, for interleaving sequences. -/
inductive Op
  | enqueue (account : String) (dom : Domain) (payload : String)
      (run_after : Nat) (maxAttempts : Nat) (now : Nat)
  | claim (now limit : Nat)
  | complete (jobId : Nat) (o : Outcome) (now : Nat) (backoff : Nat → Nat)

/-- Spec section 3: max_attempts is a positive integer ceiling set at enqueue
time. Claims and completions carry no side condition. -/
def Op.valid : Op → Prop
  | Op.enqueue _ _ _ _ m _ => 0 < m
  | Op.claim _ _ => True
  | Op.complete _ _ _ _ => True

instance (op : Op) : Decidable op.valid := by
  unfold Op.valid
  cases op <;> infer_instance

def step (st : Store) : Op → Store
  | Op.enqueue a d p r m n => (enqueue st a d p r m n).1
  | Op.claim n l => (claim_due st n l).1
  | Op.complete i o n b => complete st i o n b

def run : Store → List Op → Store
  | st, [] => st
  | st, op :: ops => run (step st op) ops

/-- Lookup of the job with a given id. -/
def Store.find (st : Store) (i : Nat) : Option SyncJob :=
  st.jobs.find? fun j => j.id == i

/-! ## Store invariants -/

/-- Ids are pairwise distinct and below the id counter. -/
def IdsOK (st : Store) : Prop :=
  (st.jobs.map SyncJob.id).Nodup ∧ ∀ j ∈ st.jobs, j.id < st.next_id

/-- The per-job counter invariant of spec section 3: the attempt count never
exceeds the ceiling, and a job that can still be attempted is strictly below
it. -/
def JobOK (j : SyncJob) : Prop :=
  j.attempt_count ≤ j.max_attempts ∧
  ((j.status = Status.pending ∨ j.status = Status.running) →
    j.attempt_count < j.max_attempts)

instance (st : Store) : Decidable (IdsOK st) := by
  unfold IdsOK
  infer_instance

def StoreOK (st : Store) : Prop :=
  ∀ j ∈ st.jobs, JobOK j

/-! ## Backoff policy, dispatcher and caller-facing enqueue, modelled from the
spec -/

/-- Modelled from the spec, section 4.2: next_run_after maps the attempt count
to a delay of min(max_delay, base_delay * 2^attempt_count) plus a jitter in
[0, 0.2 * delay]. The injectable jitter source is the rand parameter, a draw in
[0, 1] scaled onto the jitter interval; delays are rationals. -/
def next_run_after (base_delay max_delay rand : ℚ) (attempt_count : ℕ) : ℚ :=
  let delay := min max_delay (base_delay * 2 ^ attempt_count)
  delay + rand * (delay / 5)

/-- Modelled from the spec, section 3: per-run item counters are summed per
domain from collaborator results. -/
def addItems (d : Domain) (n : Nat) (s : SyncRunSummary) : SyncRunSummary :=
  match d with
  | Domain.email => { s with email_messages_synced := s.email_messages_synced + n }
  | Domain.calendar => { s with calendar_events_synced := s.calendar_events_synced + n }
  | Domain.tasks => { s with tasks_synced := s.tasks_synced + n }

/-- Modelled from the spec, section 4.3: how one attempt outcome is folded into
the run summary. -/
def recordOutcome (j : SyncJob) (o : Outcome) (s : SyncRunSummary) : SyncRunSummary :=
  match o with
  | Outcome.success items =>
    addItems j.domain items { s with completed_jobs := s.completed_jobs + 1 }
  | Outcome.transient _ =>
    if j.attempt_count + 1 < j.max_attempts then
      { s with retried_jobs := s.retried_jobs + 1 }
    else { s with failed_jobs := s.failed_jobs + 1 }
  | Outcome.permanent _ => { s with failed_jobs := s.failed_jobs + 1 }

/-- Modelled from the spec, section 4.6: one dispatcher pass. Each iteration
claims up to limit due jobs, executes the batch, applies outcomes back to the
store and folds them into the summary; the pass ends when a claim returns
empty. The fuel bound makes the pass finite, as required by section 6. -/
def runQueueLoop (fuel : Nat) (exec : SyncJob → Outcome) (backoff : Nat → Nat)
    (now limit : Nat) (st : Store) (acc : SyncRunSummary) : SyncRunSummary × Store :=
  match fuel with
  | 0 => (acc, st)
  | Nat.succ fuel =>
    match (claim_due st now limit).2 with
    | [] => (acc, (claim_due st now limit).1)
    | b :: bs =>
      let batch := b :: bs
      runQueueLoop fuel exec backoff now limit
        (batch.foldl (fun s j => complete s j.id (exec j) now backoff)
          (claim_due st now limit).1)
        (batch.foldl (fun a j => recordOutcome j (exec j) a) acc)

/-- Modelled from the spec, section 6: run_queue() executes one bounded
dispatcher pass starting from the all-zero summary. -/
def run_queue (fuel : Nat) (exec : SyncJob → Outcome) (backoff : Nat → Nat)
    (now limit : Nat) (st : Store) : SyncRunSummary × Store :=
  runQueueLoop fuel exec backoff now limit st SyncRunSummary.zero

/-- Modelled from the spec, section 6: the error raised by queue_job when the
account id does not resolve. -/
inductive QueueJobError
  | invalidAccount
deriving DecidableEq, Repr

/-- Modelled from the spec, section 6: queue_job(account_id, domain, payload,
run_after_offset_secs) enqueues a job run_after_offset_secs from now and fails
with InvalidAccount if account_id does not resolve against the known accounts.
The API default for the offset is 0 (see queue_job_default). -/
def queue_job (accounts : List String) (st : Store) (account_id : String)
    (dom : Domain) (payload : String) (run_after_offset_secs : Nat)
    (now : Nat) (maxAttempts : Nat) : Except QueueJobError (Store × Nat) :=
  if account_id ∈ accounts then
    Except.ok (enqueue st account_id dom payload (now + run_after_offset_secs)
      maxAttempts now)
  else Except.error QueueJobError.invalidAccount

/-- queue_job at its default offset of 0. -/
def queue_job_default (accounts : List String) (st : Store) (account_id : String)
    (dom : Domain) (payload : String) (now : Nat) (maxAttempts : Nat) :
    Except QueueJobError (Store × Nat) :=
  queue_job accounts st account_id dom payload 0 now maxAttempts

/-- The last two characters of a string, most recent first. -/
def lastTwo (s : String) : List Char := s.data.reverse.take 2

/-- The possible last-two-character endings of the strings pushed by
summarizeSync: from "items", "events", "tasks", "retried" and "failed". -/
def partEndings : List (List Char) :=
  [['s', 'm'], ['s', 't'], ['s', 'k'], ['d', 'e']]

/-! ## Basic facts about the store operations -/

theorem setRunning_id (j : SyncJob) : (setRunning j).id = j.id := rfl

theorem setRunning_attempt (j : SyncJob) :
    (setRunning j).attempt_count = j.attempt_count := rfl

theorem isDue_iff {now : Nat} {j : SyncJob} :
    SyncJob.isDue now j = true ↔ j.status = Status.pending ∧ j.run_after ≤ now := by
  simp [SyncJob.isDue]

theorem mem_claimChosen {st : Store} {now limit : Nat} {c : SyncJob}
    (h : c ∈ claimChosen st now limit) :
    c ∈ st.jobs ∧ c.status = Status.pending ∧ c.run_after ≤ now := by
  unfold claimChosen at h
  have h1 : c ∈ List.insertionSort dueLE (st.jobs.filter (SyncJob.isDue now)) :=
    List.mem_of_mem_take h
  have h2 : c ∈ st.jobs.filter (SyncJob.isDue now) :=
    (List.perm_insertionSort dueLE _).mem_iff.mp h1
  have h3 := List.mem_filter.mp h2
  exact ⟨h3.1, (isDue_iff.mp h3.2).1, (isDue_iff.mp h3.2).2⟩

theorem applyOutcome_id (now : Nat) (backoff : Nat → Nat) (o : Outcome) (j : SyncJob) :
    (applyOutcome now backoff o j).id = j.id := by
  cases o with
  | success n => rfl
  | transient m =>
    simp only [applyOutcome]
    split <;> rfl
  | permanent m => rfl

theorem applyOutcome_attempt (now : Nat) (backoff : Nat → Nat) (o : Outcome) (j : SyncJob) :
    (applyOutcome now backoff o j).attempt_count = j.attempt_count + 1 := by
  cases o with
  | success n => rfl
  | transient m =>
    simp only [applyOutcome]
    split <;> rfl
  | permanent m => rfl

theorem claimMark_id (st : Store) (now limit : Nat) (j : SyncJob) :
    (claimMark st now limit j).id = j.id := by
  unfold claimMark
  split <;> rfl

theorem claimMark_attempt (st : Store) (now limit : Nat) (j : SyncJob) :
    (claimMark st now limit j).attempt_count = j.attempt_count := by
  unfold claimMark
  split <;> rfl

theorem completeMark_id (jobId : Nat) (o : Outcome) (now : Nat) (backoff : Nat → Nat)
    (j : SyncJob) : (completeMark jobId o now backoff j).id = j.id := by
  unfold completeMark
  split
  · exact applyOutcome_id now backoff o j
  · rfl

theorem completeMark_attempt (jobId : Nat) (o : Outcome) (now : Nat) (backoff : Nat → Nat)
    (j : SyncJob) : j.attempt_count ≤ (completeMark jobId o now backoff j).attempt_count := by
  unfold completeMark
  split
  · rw [applyOutcome_attempt]
    exact Nat.le_succ _
  · exact Nat.le_refl _

theorem find?_map_of_id {f : SyncJob → SyncJob} (hf : ∀ j, (f j).id = j.id)
    (l : List SyncJob) (i : Nat) :
    (l.map f).find? (fun j => j.id == i) = (l.find? (fun j => j.id == i)).map f := by
  induction l with
  | nil => rfl
  | cons a l ih =>
    simp only [List.map_cons, List.find?_cons, hf a]
    by_cases h : (a.id == i) = true
    · simp [h]
    · simp only [Bool.not_eq_true] at h
      simp [h, ih]

theorem find?_append_some {l l' : List SyncJob} {p : SyncJob → Bool} {j : SyncJob}
    (h : l.find? p = some j) : (l ++ l').find? p = some j := by
  rw [List.find?_append, h]
  rfl

theorem idsOK_empty : IdsOK Store.empty := by
  constructor
  · exact List.nodup_nil
  · intro j hj
    cases hj

theorem storeOK_empty : StoreOK Store.empty := by
  intro j hj
  cases hj

theorem map_id_of_pointwise {f : SyncJob → SyncJob} (hf : ∀ j, (f j).id = j.id)
    (l : List SyncJob) : (l.map f).map SyncJob.id = l.map SyncJob.id := by
  rw [List.map_map]
  exact List.map_congr_left fun j _ => hf j

theorem idsOK_step (st : Store) (op : Op) (h : IdsOK st) : IdsOK (step st op) := by
  obtain ⟨hnd, hlt⟩ := h
  cases op with
  | enqueue a d p r m n =>
    constructor
    · show ((st.jobs ++ [_]).map SyncJob.id).Nodup
      rw [List.map_append]
      rw [List.nodup_append]
      refine ⟨hnd, List.nodup_singleton _, ?_⟩
      intro x hx hx'
      simp only [List.map_cons, List.map_nil, List.mem_singleton] at hx'
      obtain ⟨j, hj, rfl⟩ := List.mem_map.mp hx
      exact absurd hx' (Nat.ne_of_lt (hlt j hj))
    · intro j hj
      rcases List.mem_append.mp hj with hj | hj
      · exact Nat.lt_succ_of_lt (hlt j hj)
      · simp only [List.mem_singleton] at hj
        subst hj
        exact Nat.lt_succ_self _
  | claim n l =>
    constructor
    · show ((st.jobs.map (claimMark st n l)).map SyncJob.id).Nodup
      rw [map_id_of_pointwise (claimMark_id st n l)]
      exact hnd
    · intro j hj
      obtain ⟨j₀, hj₀, rfl⟩ := List.mem_map.mp hj
      rw [claimMark_id]
      exact hlt j₀ hj₀
  | complete i o n b =>
    constructor
    · show ((st.jobs.map (completeMark i o n b)).map SyncJob.id).Nodup
      rw [map_id_of_pointwise (completeMark_id i o n b)]
      exact hnd
    · intro j hj
      obtain ⟨j₀, hj₀, rfl⟩ := List.mem_map.mp hj
      rw [completeMark_id]
      exact hlt j₀ hj₀

theorem idsOK_run (st : Store) (ops : List Op) (h : IdsOK st) : IdsOK (run st ops) := by
  induction ops generalizing st with
  | nil => exact h
  | cons op ops ih => exact ih _ (idsOK_step st op h)

/-- With distinct ids, a selected row of a claim pass is the chosen job itself:
the id test in claimMark can only fire on the pending job that was selected. -/
theorem claimMark_of_chosen {st : Store} {now limit : Nat} {j : SyncJob}
    (hnd : (st.jobs.map SyncJob.id).Nodup) (hj : j ∈ st.jobs)
    (hfire : ((claimChosen st now limit).any fun c => c.id == j.id) = true) :
    j.status = Status.pending := by
  obtain ⟨c, hc, hcid⟩ := List.any_eq_true.mp hfire
  obtain ⟨hcmem, hcpending, _⟩ := mem_claimChosen hc
  have : c = j := List.inj_on_of_nodup_map hnd hcmem hj (eq_of_beq hcid)
  exact this ▸ hcpending

theorem storeOK_step (st : Store) (op : Op) (hid : IdsOK st) (hok : StoreOK st)
    (hv : op.valid) : StoreOK (step st op) := by
  cases op with
  | enqueue a d p r m n =>
    intro j hj
    rcases List.mem_append.mp hj with hj | hj
    · exact hok j hj
    · simp only [List.mem_singleton] at hj
      subst hj
      exact ⟨Nat.le_of_lt hv, fun _ => hv⟩
  | claim n l =>
    intro j hj
    obtain ⟨j₀, hj₀, rfl⟩ := List.mem_map.mp hj
    unfold claimMark
    split
    · rename_i hfire
      have hpending := claimMark_of_chosen hid.1 hj₀ hfire
      have hlt := (hok j₀ hj₀).2 (Or.inl hpending)
      exact ⟨Nat.le_of_lt hlt, fun _ => hlt⟩
    · exact hok j₀ hj₀
  | complete i o n b =>
    intro j hj
    obtain ⟨j₀, hj₀, rfl⟩ := List.mem_map.mp hj
    unfold completeMark
    split
    · rename_i hcond
      have hrun : j₀.status = Status.running := by
        have := (Bool.and_eq_true _ _).mp hcond
        exact eq_of_beq this.2
      have hlt := (hok j₀ hj₀).2 (Or.inr hrun)
      cases o with
      | success k => exact ⟨hlt, fun hco => by cases hco <;> simp_all [applyOutcome]⟩
      | transient m =>
        simp only [applyOutcome]
        split
        · rename_i hless
          exact ⟨Nat.le_of_lt hless, fun _ => hless⟩
        · exact ⟨hlt, fun hco => by cases hco <;> simp_all⟩
      | permanent m => exact ⟨hlt, fun hco => by cases hco <;> simp_all [applyOutcome]⟩
    · exact hok j₀ hj₀

theorem storeOK_run (st : Store) (ops : List Op) (hid : IdsOK st) (hok : StoreOK st)
    (hv : ∀ op ∈ ops, op.valid) : StoreOK (run st ops) := by
  induction ops generalizing st with
  | nil => exact hok
  | cons op ops ih =>
    exact ih _ (idsOK_step st op hid)
      (storeOK_step st op hid hok (hv op (List.mem_cons_self op ops)))
      fun o ho => hv o (List.mem_cons_of_mem op ho)

/-! ## Per-id tracking across steps -/

theorem find_step_enqueue {st : Store} {i : Nat} {j : SyncJob}
    (h : st.find i = some j) (a : String) (d : Domain) (p : String) (r m n : Nat) :
    (step st (Op.enqueue a d p r m n)).find i = some j :=
  find?_append_some h

theorem find_step_claim {st : Store} {i : Nat} {j : SyncJob}
    (h : st.find i = some j) (now limit : Nat) :
    (step st (Op.claim now limit)).find i = some (claimMark st now limit j) := by
  show (st.jobs.map (claimMark st now limit)).find? (fun j => j.id == i) = _
  have h2 : List.find? (fun j => j.id == i) st.jobs = some j := h
  rw [find?_map_of_id (claimMark_id st now limit), h2]
  rfl

theorem find_step_complete {st : Store} {i : Nat} {j : SyncJob}
    (h : st.find i = some j) (jobId : Nat) (o : Outcome) (now : Nat)
    (backoff : Nat → Nat) :
    (step st (Op.complete jobId o now backoff)).find i =
      some (completeMark jobId o now backoff j) := by
  show (st.jobs.map (completeMark jobId o now backoff)).find? (fun j => j.id == i) = _
  have h2 : List.find? (fun j => j.id == i) st.jobs = some j := h
  rw [find?_map_of_id (completeMark_id jobId o now backoff), h2]
  rfl

/-- Across any single store operation, the attempt counter of a tracked job
never decreases. -/
theorem attempt_mono_step (st : Store) (op : Op) (i : Nat) (j j' : SyncJob)
    (h : st.find i = some j) (h' : (step st op).find i = some j') :
    j.attempt_count ≤ j'.attempt_count := by
  cases op with
  | enqueue a d p r m n =>
    rw [find_step_enqueue h a d p r m n] at h'
    cases h'
    exact Nat.le_refl _
  | claim n l =>
    rw [find_step_claim h n l] at h'
    cases h'
    rw [claimMark_attempt]
  | complete jid o n b =>
    rw [find_step_complete h jid o n b] at h'
    cases h'
    exact completeMark_attempt jid o n b j

/-- A dead-letter row is untouched by any single store operation, provided ids
are distinct. -/
theorem deadLetter_step (st : Store) (op : Op) (i : Nat) (j : SyncJob)
    (hid : IdsOK st) (h : st.find i = some j) (hdead : j.status = Status.deadLetter) :
    (step st op).find i = some j := by
  have hjmem : j ∈ st.jobs := List.mem_of_find?_eq_some h
  cases op with
  | enqueue a d p r m n => exact find_step_enqueue h a d p r m n
  | claim n l =>
    rw [find_step_claim h n l]
    have : claimMark st n l j = j := by
      unfold claimMark
      split
      · rename_i hfire
        have := claimMark_of_chosen hid.1 hjmem hfire
        rw [hdead] at this
        cases this
      · rfl
    rw [this]
  | complete jid o n b =>
    rw [find_step_complete h jid o n b]
    have : completeMark jid o n b j = j := by
      unfold completeMark
      split
      · rename_i hcond
        have hrun : j.status = Status.running :=
          eq_of_beq ((Bool.and_eq_true _ _).mp hcond).2
        rw [hdead] at hrun
        cases hrun
      · rfl
    rw [this]

/-- A dead-letter row is untouched by any sequence of store operations. -/
theorem deadLetter_run (st : Store) (ops : List Op) (i : Nat) (j : SyncJob)
    (hid : IdsOK st) (h : st.find i = some j) (hdead : j.status = Status.deadLetter) :
    (run st ops).find i = some j := by
  induction ops generalizing st with
  | nil => exact h
  | cons op ops ih =>
    exact ih _ (idsOK_step st op hid) (deadLetter_step st op i j hid h hdead)

/-! ## Claim theorems for the scheduler core -/

/-- Claim C1: for every pair of concurrent claim_due calls on the Job Store and
every job id, at most one of the two calls returns the job with that id.
Concurrency is modelled as the interleaving of the atomic claim steps of spec
section 4.1: the second claim observes the store left by the first, and a job
returned by the first call is never in the batch of the second, in either
interleaving order (the store and both call arguments are universally
quantified). -/
theorem claim_due_atomic_per_job (st : Store) (now₁ limit₁ now₂ limit₂ : Nat)
    (j₁ j₂ : SyncJob)
    (h₁ : j₁ ∈ (claim_due st now₁ limit₁).2)
    (h₂ : j₂ ∈ (claim_due (claim_due st now₁ limit₁).1 now₂ limit₂).2) :
    j₁.id ≠ j₂.id := by
  intro hid
  obtain ⟨c₁, hc₁, rfl⟩ := List.mem_map.mp h₁
  obtain ⟨c₂, hc₂, rfl⟩ := List.mem_map.mp h₂
  obtain ⟨hc₂mem, hc₂pending, _⟩ := mem_claimChosen hc₂
  have hc₂mem2 : c₂ ∈ st.jobs.map (claimMark st now₁ limit₁) := hc₂mem
  obtain ⟨j₀, hj₀, hj₀eq⟩ := List.mem_map.mp hc₂mem2
  have hid₀ : c₁.id = j₀.id := by
    have h1 : c₁.id = c₂.id := hid
    rw [h1, ← hj₀eq, claimMark_id]
  have hfire : ((claimChosen st now₁ limit₁).any fun c => c.id == j₀.id) = true :=
    List.any_eq_true.mpr ⟨c₁, hc₁, beq_iff_eq.mpr hid₀⟩
  have hrun : c₂.status = Status.running := by
    rw [← hj₀eq]
    unfold claimMark
    rw [if_pos hfire]
    rfl
  rw [hc₂pending] at hrun
  cases hrun

/-- Witness for C1: a concrete store with two jobs; the first call (at time 0,
limit 1) claims job 0, the second call (at time 10) claims job 1, and their ids
differ. -/
theorem claim_due_atomic_per_job_witness :
    (⟨0, "a", Domain.email, Status.running, "p", 0, 3, 0, none, 0⟩ : SyncJob).id ≠
      (⟨1, "a", Domain.email, Status.running, "p", 0, 3, 5, none, 1⟩ : SyncJob).id :=
  claim_due_atomic_per_job
    ⟨[⟨0, "a", Domain.email, Status.pending, "p", 0, 3, 0, none, 0⟩,
      ⟨1, "a", Domain.email, Status.pending, "p", 0, 3, 5, none, 1⟩], 2⟩
    0 1 10 5 _ _ (by decide) (by decide)

/-- Claim C2: over any sequence of enqueue/claim_due/complete operations,
attempt_count starts at 0 at enqueue, never decreases across any single
transition, and attempt_count is at most max_attempts after every transition
(stated for every state reachable from the empty store by operations whose
enqueued max_attempts are positive, as spec section 3 requires). -/
theorem attempt_count_invariant :
    (∀ (st : Store) (a : String) (d : Domain) (p : String) (r m n : Nat),
        ∃ job : SyncJob,
          (enqueue st a d p r m n).1.jobs = st.jobs ++ [job] ∧
          job.attempt_count = 0 ∧ job.id = (enqueue st a d p r m n).2) ∧
    (∀ (st : Store) (op : Op) (i : Nat) (j j' : SyncJob),
        st.find i = some j → (step st op).find i = some j' →
        j.attempt_count ≤ j'.attempt_count) ∧
    (∀ ops : List Op, (∀ op ∈ ops, op.valid) →
        ∀ j ∈ (run Store.empty ops).jobs, j.attempt_count ≤ j.max_attempts) := by
  refine ⟨?_, ?_, ?_⟩
  · intro st a d p r m n
    exact ⟨_, rfl, rfl, rfl⟩
  · exact fun st op i j j' h h' => attempt_mono_step st op i j j' h h'
  · intro ops hv j hj
    exact (storeOK_run Store.empty ops idsOK_empty storeOK_empty hv j hj).1

/-- Witness for C2: after enqueue, claim and a transient failure that reaches
the ceiling, the concrete dead-letter job has attempt_count 1, within its
max_attempts of 1. -/
theorem attempt_count_invariant_witness :
    (⟨0, "a", Domain.email, Status.deadLetter, "p", 1, 1, 0, some "boom", 0⟩ :
        SyncJob).attempt_count ≤
      (⟨0, "a", Domain.email, Status.deadLetter, "p", 1, 1, 0, some "boom", 0⟩ :
        SyncJob).max_attempts :=
  attempt_count_invariant.2.2
    [Op.enqueue "a" Domain.email "p" 0 1 0, Op.claim 0 1,
     Op.complete 0 (Outcome.transient "boom") 7 (fun _ => 1)]
    (by
      intro op hop
      rcases hop with _ | ⟨_, (_ | ⟨_, (_ | ⟨_, h⟩)⟩)⟩ <;> first | decide | cases ‹_ ∈ ([] : List Op)›)
    _ (by decide)

/-- Claim C3: once a job has status dead_letter, no subsequent operation
(enqueue, claim_due or complete) ever changes it again; in particular its
status never returns to pending or running. Stated for any store with distinct
job ids: the row is returned unchanged by lookup after any operation
sequence. -/
theorem dead_letter_terminal (st : Store) (i : Nat) (j : SyncJob) (ops : List Op)
    (hid : IdsOK st) (h : st.find i = some j)
    (hdead : j.status = Status.deadLetter) :
    (run st ops).find i = some j ∧ j.status = Status.deadLetter :=
  ⟨deadLetter_run st ops i j hid h hdead, hdead⟩

/-- Witness for C3: a concrete dead-letter job survives a claim, a completion
and an enqueue untouched. -/
theorem dead_letter_terminal_witness :
    (run ⟨[⟨0, "a", Domain.email, Status.deadLetter, "p", 2, 2, 0, some "x", 0⟩], 1⟩
        [Op.claim 10 5, Op.complete 0 (Outcome.success 1) 3 (fun _ => 2),
         Op.enqueue "b" Domain.tasks "q" 0 3 4]).find 0 =
      some ⟨0, "a", Domain.email, Status.deadLetter, "p", 2, 2, 0, some "x", 0⟩ ∧
    (⟨0, "a", Domain.email, Status.deadLetter, "p", 2, 2, 0, some "x", 0⟩ :
      SyncJob).status = Status.deadLetter :=
  dead_letter_terminal
    ⟨[⟨0, "a", Domain.email, Status.deadLetter, "p", 2, 2, 0, some "x", 0⟩], 1⟩
    0 _ _ (by decide) (by decide) rfl

/-- Claim C4: next_run_after(attempt_count) is the capped exponential delay
min(max_delay, base_delay * 2^attempt_count) plus a jitter in [0, 0.2 * that
capped delay]: for any jitter draw in [0, 1] the result lies between the
capped delay and the capped delay plus twenty percent of it. -/
theorem next_run_after_spec (b M r : ℚ) (a : ℕ) (hb : 0 ≤ b) (hM : 0 ≤ M)
    (hr0 : 0 ≤ r) (hr1 : r ≤ 1) :
    min M (b * 2 ^ a) ≤ next_run_after b M r a ∧
    next_run_after b M r a ≤ min M (b * 2 ^ a) + (2 / 10) * min M (b * 2 ^ a) := by
  have hd : 0 ≤ min M (b * 2 ^ a) :=
    le_min hM (mul_nonneg hb (pow_nonneg (by norm_num) a))
  have hj0 : 0 ≤ r * (min M (b * 2 ^ a) / 5) :=
    mul_nonneg hr0 (div_nonneg hd (by norm_num))
  have hj1 : r * (min M (b * 2 ^ a) / 5) ≤ (2 / 10) * min M (b * 2 ^ a) := by
    have := mul_le_of_le_one_left (div_nonneg hd (by norm_num : (0:ℚ) ≤ 5)) hr1
    linarith
  have hn : next_run_after b M r a = min M (b * 2 ^ a) + r * (min M (b * 2 ^ a) / 5) := rfl
  constructor
  · rw [hn]; linarith
  · rw [hn]; linarith

/-- Witness for C4: base delay 1, cap 10, jitter draw one half, third retry:
the result lies in [8, 9.6]. -/
theorem next_run_after_spec_witness :
    min (10 : ℚ) (1 * 2 ^ 3) ≤ next_run_after 1 10 (1 / 2) 3 ∧
    next_run_after 1 10 (1 / 2) 3 ≤
      min (10 : ℚ) (1 * 2 ^ 3) + (2 / 10) * min (10 : ℚ) (1 * 2 ^ 3) :=
  next_run_after_spec 1 10 (1 / 2) 3 (by norm_num) (by norm_num) (by norm_num)
    (by norm_num)

/-- Claim C5 counterexample: the sync_queue table of 0001_init.sql has no
column named payload; its column list differs from the list the claim states
(the blob column is named payload_json). -/
theorem sync_queue_payload_column_cex :
    ((sync_queue.columns.map SqlColumn.name).contains "payload") = false ∧
    ((sync_queue.columns.map SqlColumn.name) ==
      ["id", "account_id", "domain", "status", "payload", "attempt_count",
       "max_attempts", "run_after", "last_error", "created_at", "updated_at"]) = false := by
  decide

/-- Claim C5 (amended): the sync_queue table has exactly the columns id,
account_id, domain, status, payload_json, attempt_count, max_attempts,
run_after, last_error, created_at, updated_at, in this order. -/
theorem sync_queue_columns_amended :
    sync_queue.columns.map SqlColumn.name =
      ["id", "account_id", "domain", "status", "payload_json", "attempt_count",
       "max_attempts", "run_after", "last_error", "created_at", "updated_at"] := rfl

/-- Claim C6: the durable queue table carries the secondary index
idx_sync_queue_next keyed by (status, run_after); both key columns are columns
of sync_queue, and the key determines due-ness (status pending and run_after
at or before now), so the index supports due-job lookup. -/
theorem idx_sync_queue_next_spec :
    idx_sync_queue_next.table = sync_queue.name ∧
    idx_sync_queue_next.keyColumns = ["status", "run_after"] ∧
    (∀ c ∈ idx_sync_queue_next.keyColumns, c ∈ sync_queue.columns.map SqlColumn.name) ∧
    (∀ (now : String) (r₁ r₂ : SyncQueueRow),
      r₁.status = r₂.status → r₁.run_after = r₂.run_after →
      (rowIsDue now r₁ ↔ rowIsDue now r₂)) := by
  refine ⟨rfl, rfl, by decide, ?_⟩
  intro now r₁ r₂ hs hr
  unfold rowIsDue
  rw [hs, hr]

/-- Witness for C6: two concrete rows agreeing on the index key are both due
at the same instant. -/
theorem idx_sync_queue_next_spec_witness :
    rowIsDue "2026-01-01T00:00:00Z"
        ⟨"j1", "a", "email", "pending", "x", 0, 3,
          "2025-12-31T00:00:00Z", none, "t", "t"⟩ ↔
    rowIsDue "2026-01-01T00:00:00Z"
        ⟨"j2", "b", "tasks", "pending", "y", 1, 5,
          "2025-12-31T00:00:00Z", some "e", "u", "u"⟩ :=
  idx_sync_queue_next_spec.2.2.2 "2026-01-01T00:00:00Z" _ _ rfl rfl

/-- Claim C7: run_queue invoked when no job is due returns the all-zero
summary, and the UI runSyncQueue returns exactly this all-zero summary when no
backend runtime is attached. -/
theorem run_queue_empty_spec :
    (∀ (fuel : Nat) (exec : SyncJob → Outcome) (backoff : Nat → Nat)
        (now limit : Nat) (st : Store),
        (∀ j ∈ st.jobs, SyncJob.isDue now j = false) →
        (run_queue fuel exec backoff now limit st).1 = SyncRunSummary.zero) ∧
    runSyncQueue none = SyncRunSummary.zero := by
  refine ⟨?_, rfl⟩
  intro fuel exec backoff now limit st h
  have hchosen : claimChosen st now limit = [] := by
    unfold claimChosen
    have hf : st.jobs.filter (SyncJob.isDue now) = [] :=
      List.filter_eq_nil_iff.mpr (by intro a ha; simp [h a ha])
    rw [hf]
    simp [List.insertionSort]
  have hbatch : (claim_due st now limit).2 = [] := by
    show (claimChosen st now limit).map setRunning = []
    rw [hchosen]
    rfl
  cases fuel with
  | zero => rfl
  | succ f =>
    show (runQueueLoop (f + 1) exec backoff now limit st SyncRunSummary.zero).1 =
      SyncRunSummary.zero
    unfold runQueueLoop
    rw [hbatch]

/-- Witness for C7: a pass over the empty store with fuel 3 yields the
all-zero summary. -/
theorem run_queue_empty_spec_witness :
    (run_queue 3 (fun _ => Outcome.success 1) (fun _ => 1) 0 4 Store.empty).1 =
      SyncRunSummary.zero :=
  run_queue_empty_spec.1 3 (fun _ => Outcome.success 1) (fun _ => 1) 0 4 Store.empty
    (by decide)

/-- Claim C8: queue_job takes an account id, a domain, a payload and a
run-after offset in seconds whose API default is 0, and fails with
InvalidAccount when the account id does not resolve; for every accountId, the
runtime-attached queueEmailSync issues exactly one queue_sync_job request with
domain "email", an empty payload object and a zero run-after offset. -/
theorem queue_job_spec :
    (∀ (accounts : List String) (st : Store) (account_id : String) (dom : Domain)
        (payload : String) (off now m : Nat),
        account_id ∉ accounts →
        queue_job accounts st account_id dom payload off now m =
          Except.error QueueJobError.invalidAccount) ∧
    (∀ (accounts : List String) (st : Store) (account_id : String) (dom : Domain)
        (payload : String) (now m : Nat),
        queue_job_default accounts st account_id dom payload now m =
          queue_job accounts st account_id dom payload 0 now m) ∧
    (∀ accountId : String,
        queueEmailSync true accountId =
          [{ cmd := "queue_sync_job",
             body := { account_id := accountId, domain := "email", payload := [],
                       run_after_secs := 0 } }]) := by
  refine ⟨?_, fun _ _ _ _ _ _ _ => rfl, fun _ => rfl⟩
  intro accounts st aid dom p off now m hmem
  unfold queue_job
  rw [if_neg hmem]

/-- Witness for C8: an account id absent from the account list is rejected
with InvalidAccount. -/
theorem queue_job_spec_witness :
    queue_job ["acct-1"] Store.empty "ghost" Domain.email "p" 0 0 3 =
      Except.error QueueJobError.invalidAccount :=
  queue_job_spec.1 ["acct-1"] Store.empty "ghost" Domain.email "p" 0 0 3 (by decide)

/-- Claim C9: when the Tauri runtime is unavailable, bootstrap returns the
fixed browser-dev response: empty accounts, zero pending sync jobs, telemetry
and analytics disabled, untrusted remote content blocked, local default AI
mode, and max_parallel_jobs 4. -/
theorem bootstrap_browser_dev_spec :
    bootstrap none = browserDevBootstrap ∧
    (bootstrap none).accounts = [] ∧
    (bootstrap none).pending_sync_jobs = 0 ∧
    (bootstrap none).config.profile_name = "browser-dev" ∧
    (bootstrap none).config.privacy.telemetry_enabled = false ∧
    (bootstrap none).config.privacy.analytics_enabled = false ∧
    (bootstrap none).config.privacy.block_untrusted_remote_content = true ∧
    (bootstrap none).config.privacy.default_ai_mode = "local" ∧
    (bootstrap none).config.sync.max_parallel_jobs = 4 :=
  ⟨rfl, rfl, rfl, rfl, rfl, rfl, rfl, rfl, rfl⟩

/-! ## The summarizeSync branch analysis (claim C10)

The first branch of summarizeSync returns a string ending in "completed jobs";
every part pushed into the join ends in "items", "events", "tasks", "retried"
or "failed". Comparing the last two characters separates the two branches, so
the completed-jobs sentence is returned exactly when every pushed counter is
non-positive. -/

theorem lastTwo_append (a b : String) (hb : 2 ≤ b.length) :
    lastTwo (a ++ b) = lastTwo b := by
  unfold lastTwo
  rw [String.data_append a b, List.reverse_append]
  refine List.take_append_of_le_length ?_
  rw [List.length_reverse]
  exact hb

theorem two_le_length_append (a b : String) (hb : 2 ≤ b.length) :
    2 ≤ (a ++ b).length := by
  rw [String.length_append a b]
  omega

theorem mem_ite_singleton {c : Prop} [Decidable c] {x p : String}
    (h : p ∈ if c then [x] else []) : p = x := by
  split at h
  · simpa using h
  · cases h

theorem mem_syncParts {s : SyncRunSummary} {p : String} (hp : p ∈ syncParts s) :
    p = toString s.email_messages_synced ++ " email items" ∨
    p = toString s.calendar_events_synced ++ " calendar events" ∨
    p = toString s.tasks_synced ++ " tasks" ∨
    p = toString s.retried_jobs ++ " retried" ∨
    p = toString s.failed_jobs ++ " failed" := by
  unfold syncParts at hp
  rcases List.mem_append.mp hp with h4 | h5
  · rcases List.mem_append.mp h4 with h3 | hD
    · rcases List.mem_append.mp h3 with h2 | hC
      · rcases List.mem_append.mp h2 with hA | hB
        · exact Or.inl (mem_ite_singleton hA)
        · exact Or.inr (Or.inl (mem_ite_singleton hB))
      · exact Or.inr (Or.inr (Or.inl (mem_ite_singleton hC)))
    · exact Or.inr (Or.inr (Or.inr (Or.inl (mem_ite_singleton hD))))
  · exact Or.inr (Or.inr (Or.inr (Or.inr (mem_ite_singleton h5))))

theorem syncParts_lastTwo {s : SyncRunSummary} {p : String} (hp : p ∈ syncParts s) :
    2 ≤ p.length ∧ lastTwo p ∈ partEndings := by
  rcases mem_syncParts hp with rfl | rfl | rfl | rfl | rfl <;>
    exact ⟨two_le_length_append _ _ (by decide),
      by rw [lastTwo_append _ _ (by decide)]; decide⟩

theorem completed_lastTwo (n : Int) :
    lastTwo (toString n ++ " completed jobs") = ['s', 'b'] := by
  rw [lastTwo_append _ _ (by decide)]
  decide

theorem lastTwo_joinBar (parts : List String) (hne : parts ≠ [])
    (h : ∀ p ∈ parts, 2 ≤ p.length ∧ lastTwo p ∈ partEndings) :
    lastTwo (joinBar parts) ∈ partEndings := by
  induction parts with
  | nil => exact absurd rfl hne
  | cons p rest ih =>
    cases rest with
    | nil => simpa [joinBar] using (h p (by simp)).2
    | cons q rest2 =>
      have hjoin : joinBar (p :: q :: rest2) = (p ++ " | ") ++ joinBar (q :: rest2) :=
        rfl
      have hqlen : 2 ≤ (joinBar (q :: rest2)).length := by
        have hq := (h q (by simp)).1
        cases rest2 with
        | nil => simpa [joinBar] using hq
        | cons r rest3 =>
          have : joinBar (q :: r :: rest3) = (q ++ " | ") ++ joinBar (r :: rest3) := rfl
          rw [this, String.length_append, String.length_append]
          omega
      rw [hjoin, lastTwo_append _ _ hqlen]
      exact ih (by simp) fun r hr => h r (by simp [hr])

theorem joinBar_ne_completed {s : SyncRunSummary} (hne : syncParts s ≠ []) :
    joinBar (syncParts s) ≠ toString s.completed_jobs ++ " completed jobs" := by
  intro heq
  have h1 : lastTwo (joinBar (syncParts s)) ∈ partEndings :=
    lastTwo_joinBar _ hne fun p hp => syncParts_lastTwo hp
  rw [heq, completed_lastTwo] at h1
  exact absurd h1 (by decide)

theorem ite_singleton_eq_nil {c : Prop} [Decidable c] {x : String} :
    (if c then [x] else []) = [] ↔ ¬ c := by
  split <;> simp [*]

theorem syncParts_eq_nil_iff (s : SyncRunSummary) :
    syncParts s = [] ↔
      s.email_messages_synced ≤ 0 ∧ s.calendar_events_synced ≤ 0 ∧
      s.tasks_synced ≤ 0 ∧ s.retried_jobs ≤ 0 ∧ s.failed_jobs ≤ 0 := by
  unfold syncParts
  simp only [List.append_eq_nil, ite_singleton_eq_nil, not_lt]
  tauto

/-- Claim C10: summarizeSync returns the completed-jobs sentence exactly when
all five pushed counters are non-positive; otherwise it returns the
" | "-joined descriptions of exactly the positive counters, in the fixed
source order (email items, calendar events, tasks, retried, failed), as built
by syncParts. -/
theorem summarizeSync_spec (s : SyncRunSummary) :
    (summarizeSync s = toString s.completed_jobs ++ " completed jobs" ↔
      s.email_messages_synced ≤ 0 ∧ s.calendar_events_synced ≤ 0 ∧
      s.tasks_synced ≤ 0 ∧ s.retried_jobs ≤ 0 ∧ s.failed_jobs ≤ 0) ∧
    (¬ (s.email_messages_synced ≤ 0 ∧ s.calendar_events_synced ≤ 0 ∧
        s.tasks_synced ≤ 0 ∧ s.retried_jobs ≤ 0 ∧ s.failed_jobs ≤ 0) →
      summarizeSync s = joinBar (syncParts s)) := by
  constructor
  · constructor
    · intro h
      by_contra hnot
      rw [← syncParts_eq_nil_iff] at hnot
      have hne := joinBar_ne_completed hnot
      unfold summarizeSync at h
      rw [if_neg hnot] at h
      exact hne h
    · intro h
      unfold summarizeSync
      rw [if_pos ((syncParts_eq_nil_iff s).mpr h)]
  · intro h
    unfold summarizeSync
    rw [if_neg fun hh => h ((syncParts_eq_nil_iff s).mp hh)]

/-- Witness for C10: with three email items synced, summarizeSync takes the
joined-parts branch. -/
theorem summarizeSync_spec_witness :
    summarizeSync ⟨7, 1, 2, 3, 0, 0⟩ = joinBar (syncParts ⟨7, 1, 2, 3, 0, 0⟩) :=
  (summarizeSync_spec ⟨7, 1, 2, 3, 0, 0⟩).2 (by decide)

end CoveMail
